import Mathlib

/-!
Verification of the live voice-conversation session manager
(`src/hooks/useGeminiLive.ts`) of the Audio-Visual-Presentation-Creator
repository.

The hook keeps its state in React state cells and mutable refs; here that
state is a single record `HookState`, and every callback of the hook
(`handleMessage`, `handleError`, `handleClose`, `startSession`,
`closeSession`, the `onopen` callback) is a function from `HookState` to
`HookState`, paired with the list of external actions it performs
(starting or stopping playback nodes, closing the channel, releasing
devices).  Callbacks read the refs and state cells left by the previous
callback; the host event loop serializes callback execution.  One
closure effect is modelled explicitly: `closeSession` is a `useCallback`
whose guard reads the `connectionState` value captured at the render
that created the closure, so `closeSessionAt` takes that captured value
as a parameter — the UI invokes the current render's closure (captured =
current state), while the session's registered `onerror` holds the
closure from the render whose `startSession` registered the callbacks.
The clock values the code reads (`audioContext.currentTime`,
`Date.now()`) and the identity of a freshly created buffer-source node
are passed as explicit arguments.

Numbers: audio time is modelled as `ℚ` (the code uses doubles for
seconds, all claim-relevant reasoning is exact arithmetic);
`Date.now()` is a `ℕ` millisecond count.  The base64 codec and
`decodeAudioData` live in `utils/audio`, a file absent from `src/`; the
decode outcome of an inbound chunk is therefore carried inside the
modelled message as a `DecodeResult` (a `DecodeError`, or a decoded
buffer of the given duration in seconds), following the specification of
`decodeCompressedAudio`.
-/

namespace GeminiLive

/-- Connection lifecycle states, from `ConnectionState` in `types.ts`. -/
inductive ConnectionState where
  | IDLE
  | CONNECTING
  | CONNECTED
  | CLOSING
  | CLOSED
  | ERROR
deriving DecidableEq

/-- Speaker role of a transcript entry, from `ConversationRole` in `types.ts`. -/
inductive ConversationRole where
  | USER
  | MODEL
deriving DecidableEq

/-- One finalized conversational turn, from `TranscriptEntry` in `types.ts`. -/
structure TranscriptEntry where
  id : String
  role : ConversationRole
  text : String
deriving DecidableEq

/-- One scheduled playback buffer-source node: its identity and the time
`source.start` was called with. -/
structure SourceNode where
  sid : ℕ
  startTime : ℚ
deriving DecidableEq

/-- The whole state of the hook: the four React state cells
(`connectionState`, `transcript`, `analyserNode`, `errorMessage`) and the
mutable refs.  Handles to external objects (`aiRef`, contexts, nodes, the
session promise) are modelled by their presence (`Bool`). -/
structure HookState where
  connectionState : ConnectionState
  transcript : List TranscriptEntry
  analyserNode : Bool
  errorMessage : Option String
  ai : Bool
  sessionPromise : Bool
  inputAudioContext : Bool
  outputAudioContext : Bool
  scriptProcessor : Bool
  mediaStreamSource : Bool
  nextStartTime : ℚ
  sources : List SourceNode
  currentInputTranscription : String
  currentOutputTranscription : String
deriving DecidableEq

/-- External effects a callback performs, in execution order. -/
inductive Action where
  | startSource (sid : ℕ) (t : ℚ)
  | stopSource (sid : ℕ)
  | channelClose
  | disconnectScriptProcessor
  | stopMediaTracks
  | disconnectMediaSource
  | clearAnalyser
  | closeInputContext
  | closeOutputContext
  | clearSources
  | resetCursor
  | markState (st : ConnectionState)
deriving DecidableEq

/-- Outcome of `decodeAudioData` on an inbound audio payload: a
`DecodeError` on malformed bytes, or a playable buffer of the given
duration in seconds. -/
inductive DecodeResult where
  | failed
  | buffer (dur : ℚ)
deriving DecidableEq

/-- One inbound `LiveServerMessage` as `handleMessage` reads it: the two
optional transcription fragments, the `turnComplete` flag, the optional
inline audio payload (already paired with its decode outcome, see the
module comment), and the `interrupted` flag. -/
structure ServerMessage where
  outputTranscription : Option String
  inputTranscription : Option String
  turnComplete : Bool
  modelTurnAudio : Option DecodeResult
  interrupted : Bool
deriving DecidableEq

/-- Model of the JavaScript built-in `String.prototype.trim`: drop
whitespace from both ends. -/
def jsTrim (s : String) : String :=
  ⟨((s.data.dropWhile Char.isWhitespace).reverse.dropWhile Char.isWhitespace).reverse⟩

/-- Lines 44-57 of `useGeminiLive.ts`: on `turnComplete`, trim both
accumulated transcriptions, append a user entry (if the trimmed input is
non-empty) and then a model entry (if the trimmed output is non-empty) to
the transcript, and clear both accumulators.  Entry ids interpolate
`Date.now()`. -/
def turnCompleteStep (s : HookState) (dateNow : ℕ) : HookState :=
  let fullInput := jsTrim s.currentInputTranscription
  let fullOutput := jsTrim s.currentOutputTranscription
  let t1 := if fullInput ≠ "" then
    s.transcript ++ [{ id := "user-" ++ Nat.repr dateNow, role := .USER, text := fullInput }]
    else s.transcript
  let t2 := if fullOutput ≠ "" then
    t1 ++ [{ id := "model-" ++ Nat.repr dateNow, role := .MODEL, text := fullOutput }]
    else t1
  { s with transcript := t2,
           currentInputTranscription := "",
           currentOutputTranscription := "" }

/-- Lines 37-42 of `useGeminiLive.ts`: append the output-side fragment,
then the input-side fragment, to the accumulators. -/
def accumulatePhase (s : HookState) (m : ServerMessage) : HookState :=
  let s1 := match m.outputTranscription with
    | some t => { s with currentOutputTranscription := s.currentOutputTranscription ++ t }
    | none => s
  match m.inputTranscription with
  | some t => { s1 with currentInputTranscription := s1.currentInputTranscription ++ t }
  | none => s1

/-- Lines 37-57 of `useGeminiLive.ts`: the fragment accumulation
followed by the turn-complete block when flagged. -/
def transcriptPhase (s : HookState) (m : ServerMessage) (dateNow : ℕ) : HookState :=
  if m.turnComplete then turnCompleteStep (accumulatePhase s m) dateNow
  else accumulatePhase s m

/-- Lines 74-80 of `useGeminiLive.ts`: stop every in-flight source, clear
the set, reset the cursor to zero. -/
def interruptedStep (s : HookState) : HookState × List Action :=
  ({ s with sources := [], nextStartTime := 0 },
   s.sources.map (fun src => Action.stopSource src.sid))

/-- Lines 36-81 of `useGeminiLive.ts` (`handleMessage`): transcript
phase, then the audio-scheduling block, then the interruption block.
The audio block runs only when the message carries inline audio and an
output context exists; it first clamps the cursor to the output clock,
then awaits the decode — a decode failure rejects the async handler
there, skipping the rest — and on success starts a new source at the
cursor, advances the cursor by the buffer duration, and registers the
source in the in-flight set. -/
def handleMessage (s : HookState) (m : ServerMessage) (clockNow : ℚ)
    (dateNow : ℕ) (fresh : ℕ) : HookState × List Action :=
  let s1 := transcriptPhase s m dateNow
  match m.modelTurnAudio, s1.outputAudioContext with
  | some decoded, true =>
    let s2 := { s1 with nextStartTime := max s1.nextStartTime clockNow }
    match decoded with
    | .failed => (s2, [])
    | .buffer dur =>
      let start := s2.nextStartTime
      let s3 := { s2 with nextStartTime := start + dur,
                          sources := s2.sources ++ [{ sid := fresh, startTime := start }] }
      if m.interrupted then
        let r := interruptedStep s3
        (r.1, Action.startSource fresh start :: r.2)
      else (s3, [Action.startSource fresh start])
  | _, _ =>
    if m.interrupted then interruptedStep s1 else (s1, [])

/-- Lines 175-202 of `useGeminiLive.ts` (`closeSession`): the body of
the memoized close callback.  The guard on line 176 reads the
`connectionState` value the `useCallback` closure captured at the render
that created it — the `captured` parameter — while the rest of the body
operates on the current refs and state cells.  When `captured` is IDLE
or CLOSED the callback is a no-op; otherwise it marks CLOSING, closes
the channel, disconnects and drops the script processor, stops the
capture tracks and disconnects and drops the media-stream source,
clears the analyser cell, closes and drops both audio contexts, stops
and clears every in-flight source, resets the cursor, and finally marks
CLOSED.  Optional-chained calls on an absent handle perform no external
action. -/
def closeSessionAt (captured : ConnectionState) (s : HookState) : HookState × List Action :=
  if captured = .IDLE ∨ captured = .CLOSED then (s, [])
  else
    ({ s with connectionState := .CLOSED,
              sessionPromise := false,
              scriptProcessor := false,
              mediaStreamSource := false,
              analyserNode := false,
              inputAudioContext := false,
              outputAudioContext := false,
              sources := [],
              nextStartTime := 0 },
     [Action.markState .CLOSING]
       ++ (if s.sessionPromise then [Action.channelClose] else [])
       ++ (if s.scriptProcessor then [Action.disconnectScriptProcessor] else [])
       ++ (if s.mediaStreamSource then [Action.stopMediaTracks, Action.disconnectMediaSource] else [])
       ++ [Action.clearAnalyser]
       ++ (if s.inputAudioContext then [Action.closeInputContext] else [])
       ++ (if s.outputAudioContext then [Action.closeOutputContext] else [])
       ++ s.sources.map (fun src => Action.stopSource src.sid)
       ++ [Action.clearSources, Action.resetCursor, Action.markState .CLOSED])

/-- The close callback as invoked from the current render — the UI
path: the closure it holds was created by the render showing the
current connection state, so the captured guard value is the current
one. -/
def closeSession (s : HookState) : HookState × List Action :=
  closeSessionAt s.connectionState s

/-- Lines 83-88 of `useGeminiLive.ts` (`handleError`): set the state to
ERROR and the message, then call `closeSession`.  The `closeSession`
the registered `onerror` references is the `useCallback` closure from
the render whose `startSession` registered the callbacks, so its guard
reads the connection state captured at that render — IDLE, CLOSED, or
ERROR, the only states a session can start from. -/
def handleError (captured : ConnectionState) (s : HookState) : HookState × List Action :=
  closeSessionAt captured
    { s with connectionState := .ERROR,
             errorMessage := some "A connection error occurred." }

/-- Lines 90-92 of `useGeminiLive.ts` (`handleClose`). -/
def handleClose (s : HookState) : HookState :=
  { s with connectionState := .CLOSED }

/-- Outcome of the asynchronous setup inside `startSession`: full
success, the missing-API-key throw, a device-permission denial from
`getUserMedia`, some other `Error`, or a non-`Error` throw. -/
inductive StartOutcome where
  | ok
  | noApiKey
  | permissionDenied
  | otherError (msg : String)
  | unknownFailure
deriving DecidableEq

/-- Lines 97-101 of `useGeminiLive.ts`: the synchronous prefix of a
granted start request — mark CONNECTING and clear the transcript, the
error message, and both transcription accumulators. -/
def clearForStart (s : HookState) : HookState :=
  { s with connectionState := .CONNECTING,
           transcript := [],
           errorMessage := none,
           currentInputTranscription := "",
           currentOutputTranscription := "" }

/-- Lines 103-172 of `useGeminiLive.ts`: the try-catch setup.  On
success every resource handle is created (the state stays CONNECTING
until the `onopen` callback).  The missing-API-key throw happens before
any allocation; the permission denial from `getUserMedia` and the other
failure cases happen after both contexts were created.  Every catch
branch records a message and marks ERROR. -/
def startSessionSetup (s : HookState) (o : StartOutcome) : HookState :=
  match o with
  | .ok =>
    { s with ai := true, inputAudioContext := true, outputAudioContext := true,
             mediaStreamSource := true, analyserNode := true,
             scriptProcessor := true, sessionPromise := true }
  | .noApiKey =>
    { s with errorMessage := some ("Failed to start session: " ++ "API_KEY environment variable not set."),
             connectionState := .ERROR }
  | .permissionDenied =>
    { s with ai := true, inputAudioContext := true, outputAudioContext := true,
             errorMessage := some "Microphone permission was denied. Please allow microphone access in your browser settings and try again.",
             connectionState := .ERROR }
  | .otherError msg =>
    { s with ai := true, inputAudioContext := true, outputAudioContext := true,
             errorMessage := some ("Failed to start session: " ++ msg),
             connectionState := .ERROR }
  | .unknownFailure =>
    { s with ai := true, inputAudioContext := true, outputAudioContext := true,
             errorMessage := some "An unknown error occurred while starting the session.",
             connectionState := .ERROR }

/-- Lines 94-173 of `useGeminiLive.ts` (`startSession`): a no-op unless
the current state is IDLE, CLOSED, or ERROR; otherwise the clearing
prefix followed by the setup with the given outcome. -/
def startSession (s : HookState) (o : StartOutcome) : HookState :=
  if s.connectionState = .IDLE ∨ s.connectionState = .CLOSED ∨ s.connectionState = .ERROR
  then startSessionSetup (clearForStart s) o
  else s

/-- Line 128 of `useGeminiLive.ts`: the `onopen` callback marks
CONNECTED. -/
def handleOpen (s : HookState) : HookState :=
  { s with connectionState := .CONNECTED }

/-- The state of a freshly mounted hook (lines 11-26). -/
def initState : HookState :=
  { connectionState := .IDLE, transcript := [], analyserNode := false,
    errorMessage := none, ai := false, sessionPromise := false,
    inputAudioContext := false, outputAudioContext := false,
    scriptProcessor := false, mediaStreamSource := false,
    nextStartTime := 0, sources := [],
    currentInputTranscription := "", currentOutputTranscription := "" }

/-- Truncation toward zero, the `ToIntegerOrInfinity` step of the
ECMAScript number-to-int16 conversion. -/
def ratTrunc (x : ℚ) : ℤ :=
  if 0 ≤ x then ⌊x⌋ else ⌈x⌉

/-- The ECMAScript `ToInt16` conversion applied when a number is stored
into an `Int16Array`: truncate toward zero, reduce modulo 2^16 into
[0, 2^16), and reinterpret as a signed 16-bit value. -/
def toInt16 (x : ℚ) : ℤ :=
  let n := ratTrunc x
  let m := n % 65536
  if m < 32768 then m else m - 65536

/-- Lines 130-135 of `useGeminiLive.ts` (`onaudioprocess`): each float
sample is multiplied by 32768 and stored into an `Int16Array`. -/
def pcmFloatToInt16 (samples : List ℚ) : List ℤ :=
  samples.map (fun x => toInt16 (x * 32768))

/-- Modelled from the spec: `decodeAudioData` lives in `utils/audio`,
which is absent from `src/`; per the Audio Codec contract it converts
16-bit integer PCM back into float samples, mapping the int16 value `n`
to `n / 32768`. -/
def int16SampleToFloat (n : ℤ) : ℚ :=
  (n : ℚ) / 32768

/-- One inbound channel event with the clock values the handler reads
and the identity of the node it would create. -/
structure MessageEvent where
  msg : ServerMessage
  clockNow : ℚ
  dateNow : ℕ
  fresh : ℕ
deriving DecidableEq

/-- Folds `handleMessage` over a list of inbound events. -/
def runMessages (s : HookState) : List MessageEvent → HookState
  | [] => s
  | e :: rest => runMessages (handleMessage s e.msg e.clockNow e.dateNow e.fresh).1 rest

/-- A pure-audio message whose payload decoded to a buffer of duration
`dur`. -/
def audioMsg (dur : ℚ) : ServerMessage :=
  { outputTranscription := none, inputTranscription := none,
    turnComplete := false, modelTurnAudio := some (.buffer dur), interrupted := false }

/-- Folds `handleMessage` over successfully decoded audio chunks, given
as (arrival clock time, duration) pairs; node ids count up from
`fresh`. -/
def runAudioChunks (s : HookState) : List (ℚ × ℚ) → ℕ → HookState
  | [], _ => s
  | (now, dur) :: rest, fresh =>
    runAudioChunks (handleMessage s (audioMsg dur) now 0 fresh).1 rest (fresh + 1)

/-- The in-flight nodes a gap-free schedule creates: the first chunk
starts at the cursor `c`, each later chunk starts where the previous one
ended. -/
def expectedSources (c : ℚ) (fresh : ℕ) : List (ℚ × ℚ) → List SourceNode
  | [] => []
  | (_, dur) :: rest => { sid := fresh, startTime := c } :: expectedSources (c + dur) (fresh + 1) rest

/-- Arrival keeps pace: each chunk arrives no later than the cursor it
meets (the cursor stays ahead of the output clock). -/
def paced (c : ℚ) : List (ℚ × ℚ) → Bool
  | [] => true
  | (now, dur) :: rest => decide (now ≤ c) && paced (c + dur) rest

/-- The state after a successful start request and the `onopen`
acknowledgment. -/
def connectedState : HookState :=
  handleOpen (startSession initState .ok)

/-- A connected state with one in-flight playback node and an advanced
cursor, used to instantiate general theorems. -/
def busyState : HookState :=
  { connectedState with sources := [{ sid := 5, startTime := 0 }], nextStartTime := 3 }

/-- An inbound message carrying one input-side transcription fragment
together with the turn-complete marker. -/
def turnMsg (t : String) : ServerMessage :=
  { outputTranscription := none, inputTranscription := some t,
    turnComplete := true, modelTurnAudio := none, interrupted := false }

/-- An inbound message carrying only the interruption marker. -/
def interruptMsg : ServerMessage :=
  { outputTranscription := none, inputTranscription := none,
    turnComplete := false, modelTurnAudio := none, interrupted := true }

/-- An inbound message carrying only an audio payload whose bytes failed
to decode. -/
def badAudioMsg : ServerMessage :=
  { outputTranscription := none, inputTranscription := none,
    turnComplete := false, modelTurnAudio := some .failed, interrupted := false }

/-- The `Date.now()` values at which the turn-complete events of a
schedule are handled, in order. -/
def turnDates (events : List MessageEvent) : List ℕ :=
  (events.filter (fun e => e.msg.turnComplete)).map (fun e => e.dateNow)

/-- The entry was minted at turn-complete time `t`: its id interpolates
`t` after the role tag. -/
def entryFromDate (t : ℕ) (e : TranscriptEntry) : Prop :=
  e.id = "user-" ++ Nat.repr t ∨ e.id = "model-" ++ Nat.repr t

/-- Decimal digit characters of `n`, most significant first: the
reference function `Nat.repr` is proved to agree with. -/
def reprDigits (n : ℕ) : List Char :=
  if n < 10 then [Nat.digitChar n]
  else reprDigits (n / 10) ++ [Nat.digitChar (n % 10)]
termination_by n
decreasing_by exact Nat.div_lt_self (by omega) (by omega)

/-- Numeric value of a decimal digit character. -/
def digitVal (c : Char) : ℕ :=
  c.toNat - 48

/-- Reads a decimal digit string back into a number. -/
def parseDigits (l : List Char) : ℕ :=
  l.foldl (fun a c => 10 * a + digitVal c) 0

/-- The transcript phase of `handleMessage` touches only the transcript
and the two accumulators: every other field of the state survives it. -/
theorem transcriptPhase_frame (s : HookState) (m : ServerMessage) (d : ℕ) :
    (transcriptPhase s m d).connectionState = s.connectionState ∧
    (transcriptPhase s m d).analyserNode = s.analyserNode ∧
    (transcriptPhase s m d).errorMessage = s.errorMessage ∧
    (transcriptPhase s m d).ai = s.ai ∧
    (transcriptPhase s m d).sessionPromise = s.sessionPromise ∧
    (transcriptPhase s m d).inputAudioContext = s.inputAudioContext ∧
    (transcriptPhase s m d).outputAudioContext = s.outputAudioContext ∧
    (transcriptPhase s m d).scriptProcessor = s.scriptProcessor ∧
    (transcriptPhase s m d).mediaStreamSource = s.mediaStreamSource ∧
    (transcriptPhase s m d).nextStartTime = s.nextStartTime ∧
    (transcriptPhase s m d).sources = s.sources := by
  unfold transcriptPhase accumulatePhase turnCompleteStep
  cases m.outputTranscription <;> cases m.inputTranscription <;>
    cases m.turnComplete <;> simp

/-- A message without transcription fragments and without the
turn-complete flag leaves the transcript phase inert. -/
theorem transcriptPhase_inert (s : HookState) (m : ServerMessage) (d : ℕ)
    (h1 : m.outputTranscription = none) (h2 : m.inputTranscription = none)
    (h3 : m.turnComplete = false) :
    transcriptPhase s m d = s := by
  unfold transcriptPhase accumulatePhase
  rw [h1, h2, h3]
  simp

/-- C3: on a turn-complete signal both accumulators are trimmed, one
user entry is appended exactly when the trimmed input side is
non-empty, one model entry is appended exactly when the trimmed output
side is non-empty — with the user entry placed before the model entry —
no entry is appended for an empty side, and both accumulators are
cleared afterwards. -/
theorem turn_complete_flush (s : HookState) (dateNow : ℕ) :
    (turnCompleteStep s dateNow).transcript =
      s.transcript
        ++ (if jsTrim s.currentInputTranscription ≠ "" then
              [{ id := "user-" ++ Nat.repr dateNow, role := ConversationRole.USER,
                 text := jsTrim s.currentInputTranscription }] else [])
        ++ (if jsTrim s.currentOutputTranscription ≠ "" then
              [{ id := "model-" ++ Nat.repr dateNow, role := ConversationRole.MODEL,
                 text := jsTrim s.currentOutputTranscription }] else []) ∧
    (turnCompleteStep s dateNow).currentInputTranscription = "" ∧
    (turnCompleteStep s dateNow).currentOutputTranscription = "" := by
  refine ⟨?_, rfl, rfl⟩
  unfold turnCompleteStep
  by_cases hin : jsTrim s.currentInputTranscription = "" <;>
    by_cases hout : jsTrim s.currentOutputTranscription = "" <;>
      simp [hin, hout]

/-- C4: a start request is a no-op unless the state is IDLE, CLOSED, or
ERROR; when it is, the request becomes the clearing prefix — which marks
CONNECTING and empties the transcript and both accumulators — followed
by the setup. -/
theorem start_request_gate (s : HookState) (o : StartOutcome) :
    ((s.connectionState = .CONNECTING ∨ s.connectionState = .CONNECTED ∨
        s.connectionState = .CLOSING) → startSession s o = s) ∧
    ((s.connectionState = .IDLE ∨ s.connectionState = .CLOSED ∨
        s.connectionState = .ERROR) →
      startSession s o = startSessionSetup (clearForStart s) o ∧
      (clearForStart s).connectionState = .CONNECTING ∧
      (clearForStart s).transcript = [] ∧
      (clearForStart s).currentInputTranscription = "" ∧
      (clearForStart s).currentOutputTranscription = "") := by
  constructor
  · intro h
    unfold startSession
    rcases h with h | h | h <;> simp [h]
  · intro h
    refine ⟨?_, rfl, rfl, rfl, rfl⟩
    unfold startSession
    rcases h with h | h | h <;> simp [h]

/-- Witness for `start_request_gate`: starting while CONNECTED changes
nothing, and starting from CLOSED runs the cleared setup. -/
theorem start_request_gate_witness :
    startSession { initState with connectionState := ConnectionState.CONNECTED }
        StartOutcome.ok
      = { initState with connectionState := ConnectionState.CONNECTED } ∧
    startSession { initState with connectionState := ConnectionState.CLOSED }
        StartOutcome.ok
      = startSessionSetup
          (clearForStart { initState with connectionState := ConnectionState.CLOSED })
          StartOutcome.ok :=
  ⟨(start_request_gate _ _).1 (Or.inr (Or.inl rfl)),
   ((start_request_gate _ _).2 (Or.inr (Or.inl rfl))).1⟩

/-- C5: a close request while IDLE or CLOSED is a no-op; otherwise the
teardown performs, in order, the CLOSING mark, the channel close, the
capture disconnects, the analyser clear, both context closes, the
stop-and-clear of all in-flight sources with the cursor reset, and the
CLOSED mark last, ending in the fully released CLOSED state. -/
theorem close_request_teardown (s : HookState) :
    ((s.connectionState = .IDLE ∨ s.connectionState = .CLOSED) →
      closeSession s = (s, [])) ∧
    (s.connectionState ≠ .IDLE → s.connectionState ≠ .CLOSED →
      s.sessionPromise = true → s.scriptProcessor = true →
      s.mediaStreamSource = true → s.inputAudioContext = true →
      s.outputAudioContext = true →
      closeSession s =
        ({ s with connectionState := .CLOSED, sessionPromise := false,
                  scriptProcessor := false, mediaStreamSource := false,
                  analyserNode := false, inputAudioContext := false,
                  outputAudioContext := false, sources := [], nextStartTime := 0 },
         [Action.markState .CLOSING, Action.channelClose,
          Action.disconnectScriptProcessor, Action.stopMediaTracks,
          Action.disconnectMediaSource, Action.clearAnalyser,
          Action.closeInputContext, Action.closeOutputContext]
           ++ s.sources.map (fun src => Action.stopSource src.sid)
           ++ [Action.clearSources, Action.resetCursor, Action.markState .CLOSED])) := by
  constructor
  · intro h
    unfold closeSession closeSessionAt
    simp [h]
  · intro h1 h2 h3 h4 h5 h6 h7
    unfold closeSession closeSessionAt
    rw [if_neg (by tauto), h3, h4, h5, h6, h7]
    simp

/-- Witness for `close_request_teardown`: closing the busy connected
state emits the full ordered trace and ends CLOSED with everything
released. -/
theorem close_request_teardown_witness :
    closeSession busyState =
      ({ busyState with
          connectionState := ConnectionState.CLOSED,
          sessionPromise := false, scriptProcessor := false,
          mediaStreamSource := false, analyserNode := false,
          inputAudioContext := false, outputAudioContext := false,
          sources := [], nextStartTime := 0 },
       [Action.markState .CLOSING, Action.channelClose,
        Action.disconnectScriptProcessor, Action.stopMediaTracks,
        Action.disconnectMediaSource, Action.clearAnalyser,
        Action.closeInputContext, Action.closeOutputContext, Action.stopSource 5,
        Action.clearSources, Action.resetCursor, Action.markState .CLOSED]) := by
  have h := (close_request_teardown busyState).2 (by decide) (by decide)
    rfl rfl rfl rfl rfl
  have hs : busyState.sources = [{ sid := 5, startTime := 0 }] := rfl
  rw [hs] at h
  simpa using h

/-- C7: the claim promises that a mid-session channel error also
triggers the same teardown as a normal close; the code violates that.
A session can only be started from IDLE, CLOSED, or ERROR, and the
`closeSession` closure its `onerror` references captured that
connection state.  For a session started from IDLE (the connected state
below), a channel error does end in ERROR with the non-empty message —
but the captured-IDLE guard short-circuits `closeSession` (line 176),
so the callback emits no action at all and every resource handle stays
allocated: channel, capture stream, script processor, both audio
contexts.  For a session started from ERROR, the captured guard passes,
the teardown does run, and its final mark leaves the state CLOSED, not
ERROR. -/
theorem channel_error_skips_teardown :
    (handleError ConnectionState.IDLE connectedState).1
      = { connectedState with
          connectionState := ConnectionState.ERROR,
          errorMessage := some "A connection error occurred." } ∧
    (handleError ConnectionState.IDLE connectedState).2 = [] ∧
    connectedState.sessionPromise = true ∧
    connectedState.scriptProcessor = true ∧
    connectedState.mediaStreamSource = true ∧
    connectedState.inputAudioContext = true ∧
    connectedState.outputAudioContext = true ∧
    (handleError ConnectionState.ERROR connectedState).1.connectionState
      = ConnectionState.CLOSED :=
  ⟨rfl, rfl, rfl, rfl, rfl, rfl, rfl, rfl⟩

/-- C10: a message carrying only the interruption marker changes nothing
but the in-flight set (emptied, each member stopped) and the cursor
(reset to zero): transcript, accumulators, connection state, error
message and every resource handle are untouched. -/
theorem interruption_frame_effect (s : HookState) (m : ServerMessage)
    (clockNow : ℚ) (dateNow fresh : ℕ)
    (hi : m.interrupted = true) (h1 : m.outputTranscription = none)
    (h2 : m.inputTranscription = none) (h3 : m.turnComplete = false)
    (h4 : m.modelTurnAudio = none) :
    handleMessage s m clockNow dateNow fresh =
      ({ s with sources := [], nextStartTime := 0 },
       s.sources.map (fun src => Action.stopSource src.sid)) := by
  unfold handleMessage
  rw [h4, transcriptPhase_inert s m dateNow h1 h2 h3, hi]
  simp [interruptedStep]

/-- A successfully decoded audio chunk, handled while an output context
exists and no interruption is flagged in the same message, clamps the
cursor to the clock, starts one new source exactly at the clamped
cursor, advances the cursor by the buffer duration, and appends the new
source to the in-flight set. -/
theorem handleMessage_audio_ok (s : HookState) (m : ServerMessage)
    (clockNow : ℚ) (dateNow fresh : ℕ) (dur : ℚ)
    (ha : m.modelTurnAudio = some (.buffer dur)) (hni : m.interrupted = false)
    (hc : s.outputAudioContext = true) :
    handleMessage s m clockNow dateNow fresh =
      ({ transcriptPhase s m dateNow with
          nextStartTime := max s.nextStartTime clockNow + dur,
          sources := s.sources
            ++ [{ sid := fresh, startTime := max s.nextStartTime clockNow }] },
       [Action.startSource fresh (max s.nextStartTime clockNow)]) := by
  obtain ⟨-, -, -, -, -, -, hoc, -, -, hnst, hsrc⟩ := transcriptPhase_frame s m dateNow
  simp only [handleMessage, ha, hni, hoc, hc, hnst, hsrc]
  simp

/-- Specialization to a pure-audio message. -/
theorem handleMessage_audioMsg (s : HookState) (now dur : ℚ) (fresh : ℕ)
    (hc : s.outputAudioContext = true) :
    handleMessage s (audioMsg dur) now 0 fresh =
      ({ s with nextStartTime := max s.nextStartTime now + dur,
                sources := s.sources
                  ++ [{ sid := fresh, startTime := max s.nextStartTime now }] },
       [Action.startSource fresh (max s.nextStartTime now)]) := by
  rw [handleMessage_audio_ok s (audioMsg dur) now 0 fresh dur rfl rfl hc,
      transcriptPhase_inert s (audioMsg dur) 0 rfl rfl rfl]

/-- Running a paced burst of decoded chunks appends one source per chunk,
back to back: the first starts at the cursor and each next one starts
where the previous ends; the cursor ends advanced by the total duration
and the output context survives. -/
theorem runAudioChunks_spec (chunks : List (ℚ × ℚ)) :
    ∀ (s : HookState) (fresh : ℕ), s.outputAudioContext = true →
      paced s.nextStartTime chunks = true →
      (runAudioChunks s chunks fresh).sources
          = s.sources ++ expectedSources s.nextStartTime fresh chunks ∧
      (runAudioChunks s chunks fresh).nextStartTime
          = s.nextStartTime + (chunks.map Prod.snd).sum ∧
      (runAudioChunks s chunks fresh).outputAudioContext = true := by
  induction chunks with
  | nil =>
    intro s fresh hc _
    simp [runAudioChunks, expectedSources, hc]
  | cons hd rest ih =>
    intro s fresh hc hp
    obtain ⟨now, dur⟩ := hd
    have hp1 : now ≤ s.nextStartTime ∧ paced (s.nextStartTime + dur) rest = true := by
      simpa [paced] using hp
    unfold runAudioChunks
    rw [handleMessage_audioMsg s now dur fresh hc, max_eq_left hp1.1]
    have hrest := ih
      { s with
          nextStartTime := s.nextStartTime + dur,
          sources := s.sources ++ [{ sid := fresh, startTime := s.nextStartTime }] }
      (fresh + 1) hc hp1.2
    dsimp only at hrest ⊢
    refine ⟨?_, ?_, hrest.2.2⟩
    · rw [hrest.1]
      simp [expectedSources]
    · rw [hrest.2.1]
      simp [add_assoc]

/-- C1: while an output context exists, each decoded chunk is scheduled
at the cursor clamped to the output clock and the cursor then advances
by exactly the chunk duration; the clamp resolves to the cursor when the
chunk arrives on time and to the clock when it arrives late; and a paced
burst of chunks with durations d1..dN is scheduled gap-free, each start
being the previous start plus the previous duration. -/
theorem playback_gap_free (s : HookState) (m : ServerMessage) (clockNow dur : ℚ)
    (dateNow fresh : ℕ) (chunks : List (ℚ × ℚ)) :
    (m.modelTurnAudio = some (.buffer dur) → m.interrupted = false →
      s.outputAudioContext = true →
      ((handleMessage s m clockNow dateNow fresh).1.sources
          = s.sources ++ [{ sid := fresh, startTime := max s.nextStartTime clockNow }] ∧
       (handleMessage s m clockNow dateNow fresh).1.nextStartTime
          = max s.nextStartTime clockNow + dur ∧
       (clockNow ≤ s.nextStartTime → max s.nextStartTime clockNow = s.nextStartTime) ∧
       (s.nextStartTime < clockNow → max s.nextStartTime clockNow = clockNow))) ∧
    (s.outputAudioContext = true → paced s.nextStartTime chunks = true →
      (runAudioChunks s chunks fresh).sources
        = s.sources ++ expectedSources s.nextStartTime fresh chunks) := by
  constructor
  · intro ha hni hc
    rw [handleMessage_audio_ok s m clockNow dateNow fresh dur ha hni hc]
    exact ⟨rfl, rfl, fun h => max_eq_left h, fun h => max_eq_right (le_of_lt h)⟩
  · intro hc hp
    exact (runAudioChunks_spec chunks s fresh hc hp).1

/-- Witness for `playback_gap_free`: from the busy state (cursor at 3),
the paced chunks of durations 2 and 1 are scheduled at 3 and 5 —
back to back, with no reference to their arrival clock times 0 and 1. -/
theorem playback_gap_free_witness :
    (runAudioChunks busyState [(0, 2), (1, 1)] 10).sources
      = [{ sid := 5, startTime := 0 }, { sid := 10, startTime := 3 },
         { sid := 11, startTime := 5 }] := by
  have h := (playback_gap_free busyState (audioMsg 0) 0 0 0 10 [(0, 2), (1, 1)]).2
    rfl (by rw [show busyState.nextStartTime = (3 : ℚ) from rfl]; norm_num [paced])
  rw [h, show busyState.sources = [{ sid := 5, startTime := 0 }] from rfl,
      show busyState.nextStartTime = (3 : ℚ) from rfl]
  norm_num [expectedSources]

/-- C2: handling an interruption signal force-stops every member of the
in-flight set, empties the set, and zeroes the cursor; a chunk handled
after it therefore starts at the output clock's current time, not at the
pre-interruption cursor. -/
theorem interruption_stops_all (s : HookState) (m : ServerMessage)
    (clockNow : ℚ) (dateNow fresh : ℕ)
    (hi : m.interrupted = true) (h4 : m.modelTurnAudio = none) :
    (handleMessage s m clockNow dateNow fresh).1.sources = [] ∧
    (handleMessage s m clockNow dateNow fresh).1.nextStartTime = 0 ∧
    (∀ src ∈ s.sources,
      Action.stopSource src.sid ∈ (handleMessage s m clockNow dateNow fresh).2) ∧
    (∀ (m2 : ServerMessage) (now2 dur : ℚ) (d2 f2 : ℕ),
      0 ≤ now2 → m2.modelTurnAudio = some (.buffer dur) → m2.interrupted = false →
      s.outputAudioContext = true →
      (handleMessage (handleMessage s m clockNow dateNow fresh).1 m2 now2 d2 f2).1.sources
        = [{ sid := f2, startTime := now2 }]) := by
  obtain ⟨-, -, -, -, -, -, hoc, -, -, -, hsrc⟩ := transcriptPhase_frame s m dateNow
  have hred : handleMessage s m clockNow dateNow fresh
      = interruptedStep (transcriptPhase s m dateNow) := by
    unfold handleMessage
    rw [h4, hi]
    simp
  refine ⟨by rw [hred]; rfl, by rw [hred]; rfl, ?_, ?_⟩
  · intro src hmem
    rw [hred]
    show Action.stopSource src.sid
      ∈ (transcriptPhase s m dateNow).sources.map (fun src => Action.stopSource src.sid)
    rw [hsrc]
    exact List.mem_map_of_mem _ hmem
  · intro m2 now2 dur d2 f2 hpos ha2 hni2 hctx
    rw [hred]
    have hctx1 : (interruptedStep (transcriptPhase s m dateNow)).1.outputAudioContext = true := by
      show (transcriptPhase s m dateNow).outputAudioContext = true
      rw [hoc, hctx]
    rw [handleMessage_audio_ok _ m2 now2 d2 f2 dur ha2 hni2 hctx1]
    simp [interruptedStep, max_eq_right hpos]

/-- Witness for `interruption_stops_all`: interrupting the busy state
stops node 5, and the next decoded chunk (arriving at clock time 4)
starts at 4 rather than at the pre-interruption cursor 3. -/
theorem interruption_stops_all_witness :
    (handleMessage busyState interruptMsg 1 2 9).1.sources = [] ∧
    (handleMessage busyState interruptMsg 1 2 9).1.nextStartTime = 0 ∧
    Action.stopSource 5 ∈ (handleMessage busyState interruptMsg 1 2 9).2 ∧
    (handleMessage (handleMessage busyState interruptMsg 1 2 9).1 (audioMsg 2) 4 0 11).1.sources
      = [{ sid := 11, startTime := 4 }] := by
  obtain ⟨a, b, c, d⟩ := interruption_stops_all busyState interruptMsg 1 2 9 rfl rfl
  refine ⟨a, b, ?_, d (audioMsg 2) 4 2 0 11 (by norm_num) rfl rfl rfl⟩
  have h5 : ({ sid := 5, startTime := 0 } : SourceNode) ∈ busyState.sources := by
    rw [show busyState.sources = [{ sid := 5, startTime := 0 }] from rfl]
    exact List.mem_singleton_self _
  exact c _ h5

/-- C8: a chunk whose bytes fail to decode is dropped in isolation: the
handler stops at the decode, so apart from the cursor clamp the state is
untouched — connection state, transcript, accumulators, and in-flight
set all survive — no source is started, and the next successfully
decoded chunk schedules normally. -/
theorem decode_failure_isolated (s : HookState) (m : ServerMessage)
    (clockNow : ℚ) (dateNow fresh : ℕ)
    (ha : m.modelTurnAudio = some .failed)
    (h1 : m.outputTranscription = none) (h2 : m.inputTranscription = none)
    (h3 : m.turnComplete = false) (hc : s.outputAudioContext = true) :
    handleMessage s m clockNow dateNow fresh
      = ({ s with nextStartTime := max s.nextStartTime clockNow }, []) ∧
    (∀ (m2 : ServerMessage) (now2 dur : ℚ) (d2 f2 : ℕ),
      m2.modelTurnAudio = some (.buffer dur) → m2.interrupted = false →
      (handleMessage (handleMessage s m clockNow dateNow fresh).1 m2 now2 d2 f2).1.sources
        = s.sources ++ [{ sid := f2, startTime := max (max s.nextStartTime clockNow) now2 }]) := by
  have hred : handleMessage s m clockNow dateNow fresh
      = ({ s with nextStartTime := max s.nextStartTime clockNow }, []) := by
    simp only [handleMessage, ha, transcriptPhase_inert s m dateNow h1 h2 h3, hc]
  refine ⟨hred, ?_⟩
  intro m2 now2 dur d2 f2 ha2 hni2
  rw [hred,
      handleMessage_audio_ok { s with nextStartTime := max s.nextStartTime clockNow }
        m2 now2 d2 f2 dur ha2 hni2 hc]

/-- Witness for `decode_failure_isolated`: a malformed chunk arriving at
the busy state (cursor 3, clock 1) changes nothing but the clamp — which
keeps the cursor at 3 — and the next good chunk (at clock 4) is
scheduled at 4 after the in-flight node 5. -/
theorem decode_failure_isolated_witness :
    handleMessage busyState badAudioMsg 1 0 0
      = ({ busyState with nextStartTime := 3 }, []) ∧
    (handleMessage (handleMessage busyState badAudioMsg 1 0 0).1 (audioMsg 2) 4 0 11).1.sources
      = [{ sid := 5, startTime := 0 }, { sid := 11, startTime := 4 }] := by
  obtain ⟨h1, h2⟩ := decode_failure_isolated busyState badAudioMsg 1 0 0 rfl rfl rfl rfl rfl
  constructor
  · rw [h1, show max busyState.nextStartTime 1 = (3 : ℚ) from by decide]
  · rw [h2 (audioMsg 2) 4 2 0 11 rfl rfl,
       show max (max busyState.nextStartTime 1) 4 = (4 : ℚ) from by decide,
       show busyState.sources = [{ sid := 5, startTime := 0 }] from rfl]
    rfl

/-- Witness for `interruption_frame_effect`: interrupting the busy state
stops node 5, clears the set, resets the cursor, and leaves all other
fields of the state as they were. -/
theorem interruption_frame_effect_witness :
    handleMessage busyState interruptMsg 1 2 9 =
      ({ busyState with sources := [], nextStartTime := 0 },
       [Action.stopSource 5]) := by
  have h := interruption_frame_effect busyState interruptMsg 1 2 9 rfl rfl rfl rfl rfl
  have hs : busyState.sources = [{ sid := 5, startTime := 0 }] := rfl
  rw [hs] at h
  simpa using h

/-- Truncation toward zero moves a rational by strictly less than one. -/
theorem ratTrunc_abs_lt (y : ℚ) : |y - (ratTrunc y : ℚ)| < 1 := by
  unfold ratTrunc
  split
  · rw [abs_of_nonneg (sub_nonneg.mpr (Int.floor_le y))]
    have := Int.lt_floor_add_one y
    linarith
  · rw [abs_of_nonpos (sub_nonpos.mpr (Int.le_ceil y))]
    have := Int.ceil_lt_add_one y
    linarith

/-- Truncation toward zero of a rational in the signed 16-bit window
stays in the int16 value range. -/
theorem ratTrunc_bounds (y : ℚ) (h1 : -32768 ≤ y) (h2 : y < 32768) :
    -32768 ≤ ratTrunc y ∧ ratTrunc y ≤ 32767 := by
  unfold ratTrunc
  split
  case isTrue hy =>
    have hf0 : (0 : ℤ) ≤ ⌊y⌋ := Int.floor_nonneg.mpr hy
    have hfu : ⌊y⌋ < 32768 := by
      rw [Int.floor_lt]
      exact_mod_cast h2
    omega
  case isFalse hy =>
    push_neg at hy
    have hcu : ⌈y⌉ ≤ (0 : ℤ) := Int.ceil_le.mpr (by exact_mod_cast le_of_lt hy)
    have hcl : (-32768 : ℤ) ≤ ⌈y⌉ := by
      have hyc : ((-32768 : ℤ) : ℚ) ≤ (⌈y⌉ : ℚ) :=
        le_trans (by exact_mod_cast h1) (Int.le_ceil y)
      exact_mod_cast hyc
    omega

/-- A sample in [-1, 1) converts without wraparound: the stored int16
value is the plain truncation of the scaled sample, it lies in the int16
range, and decoding it back lands within one integer step of the
original sample. -/
theorem toInt16_sample (x : ℚ) (h1 : -1 ≤ x) (h2 : x < 1) :
    toInt16 (x * 32768) = ratTrunc (x * 32768) ∧
    -32768 ≤ toInt16 (x * 32768) ∧ toInt16 (x * 32768) ≤ 32767 ∧
    |x - int16SampleToFloat (toInt16 (x * 32768))| < 1 / 32768 := by
  have hy1 : (-32768 : ℚ) ≤ x * 32768 := by linarith
  have hy2 : x * 32768 < 32768 := by linarith
  obtain ⟨hb1, hb2⟩ := ratTrunc_bounds (x * 32768) hy1 hy2
  have heq : toInt16 (x * 32768) = ratTrunc (x * 32768) := by
    simp only [toInt16]
    split <;> omega
  refine ⟨heq, by rw [heq]; exact hb1, by rw [heq]; exact hb2, ?_⟩
  rw [heq]
  have habs := ratTrunc_abs_lt (x * 32768)
  unfold int16SampleToFloat
  have hrw : x - (ratTrunc (x * 32768) : ℚ) / 32768
      = (x * 32768 - (ratTrunc (x * 32768) : ℚ)) / 32768 := by ring
  rw [hrw, abs_div, abs_of_pos (by norm_num : (0 : ℚ) < 32768)]
  rw [div_lt_div_iff_of_pos_right (by norm_num : (0 : ℚ) < 32768)]
  exact habs

/-- C6 counterexample: the conversion multiplies by 32768 and stores
with int16 wraparound, so the full-scale sample +1.0 becomes -32768 and
decodes back to -1.0 — an error of 2 full scale units, far outside the
one-integer-step tolerance, with the sign flipped rather than correctly
scaled. -/
theorem pcm_full_scale_wraps :
    pcmFloatToInt16 [(1 : ℚ)] = [-32768] ∧
    |(1 : ℚ) - int16SampleToFloat (-32768)| = 2 ∧
    ¬ |(1 : ℚ) - int16SampleToFloat (-32768)| < 1 / 32768 := by
  have hdec : int16SampleToFloat (-32768) = -1 := by
    norm_num [int16SampleToFloat]
  have habs : |(1 : ℚ) - int16SampleToFloat (-32768)| = 2 := by
    rw [hdec, show (1 : ℚ) - (-1) = 2 from by norm_num,
        abs_of_nonneg (by norm_num : (0 : ℚ) ≤ 2)]
  refine ⟨?_, habs, by rw [habs]; norm_num⟩
  show [toInt16 (1 * 32768)] = [-32768]
  rw [show (1 : ℚ) * 32768 = 32768 from by norm_num]
  decide

/-- C6 amended: for every captured buffer of float samples each in
[-1, 1) — full positive scale excluded, where the code wraps — every
produced integer is the truncation of the sample scaled by 32768, lies
in the int16 range, and round-trips to the original sample within the
integer-rounding tolerance 1/32768. -/
theorem pcm_scaled_roundtrip (samples : List ℚ)
    (hb : ∀ x ∈ samples, -1 ≤ x ∧ x < 1) :
    List.Forall₂
      (fun x n => n = ratTrunc (x * 32768) ∧ -32768 ≤ n ∧ n ≤ 32767 ∧
        |x - int16SampleToFloat n| < 1 / 32768)
      samples (pcmFloatToInt16 samples) := by
  unfold pcmFloatToInt16
  rw [List.forall₂_map_right_iff, List.forall₂_same]
  intro x hx
  exact toInt16_sample x (hb x hx).1 (hb x hx).2

/-- Witness for `pcm_scaled_roundtrip` on the frame [0, 1/2, -1/2]. -/
theorem pcm_scaled_roundtrip_witness :
    List.Forall₂
      (fun x n => n = ratTrunc (x * 32768) ∧ -32768 ≤ n ∧ n ≤ 32767 ∧
        |x - int16SampleToFloat n| < 1 / 32768)
      [0, 1/2, -1/2] (pcmFloatToInt16 [0, 1/2, -1/2]) :=
  pcm_scaled_roundtrip [0, 1/2, -1/2]
    (by intro x hx; fin_cases hx <;> norm_num)

/-- The fueled digit-printing loop of the core library agrees with
`reprDigits` whenever the fuel suffices. -/
theorem toDigitsCore_eq_reprDigits (fuel : ℕ) :
    ∀ (n : ℕ) (ds : List Char), n < fuel →
      Nat.toDigitsCore 10 fuel n ds = reprDigits n ++ ds := by
  induction fuel with
  | zero => intro n ds h; omega
  | succ f ih =>
    intro n ds h
    simp only [Nat.toDigitsCore]
    by_cases h0 : n / 10 = 0
    · rw [if_pos h0, reprDigits, if_pos (by omega : n < 10),
          Nat.mod_eq_of_lt (by omega : n < 10)]
      rfl
    · rw [if_neg h0, ih (n / 10) _ (by omega)]
      conv_rhs => rw [reprDigits, if_neg (by omega : ¬ n < 10)]
      simp

/-- The decimal digits of `n` read back as `n`, for any fold
accumulator. -/
theorem parseDigits_aux (n : ℕ) : ∀ a : ℕ,
    List.foldl (fun a c => 10 * a + digitVal c) a (reprDigits n)
      = a * 10 ^ (reprDigits n).length + n := by
  induction n using Nat.strong_induction_on with
  | _ n ih =>
    intro a
    have hdig : ∀ e < 10, digitVal (Nat.digitChar e) = e := by decide
    by_cases h : n < 10
    · rw [reprDigits, if_pos h]
      simp [hdig n h, Nat.mul_comm]
    · rw [reprDigits, if_neg h, List.foldl_append,
          ih (n / 10) (by omega) a]
      simp only [List.foldl, List.length_append, List.length_cons,
        List.length_nil]
      rw [hdig (n % 10) (by omega)]
      have hmod : 10 * (n / 10) + n % 10 = n := by omega
      calc 10 * (a * 10 ^ (reprDigits (n / 10)).length + n / 10) + n % 10
          = a * (10 ^ (reprDigits (n / 10)).length * 10)
              + (10 * (n / 10) + n % 10) := by ring
        _ = a * 10 ^ ((reprDigits (n / 10)).length + 0 + 1) + n := by
              rw [pow_succ, hmod]

/-- `reprDigits` is injective. -/
theorem reprDigits_inj {a b : ℕ} (h : reprDigits a = reprDigits b) : a = b := by
  have ha := parseDigits_aux a 0
  have hb := parseDigits_aux b 0
  rw [h] at ha
  rw [ha] at hb
  simpa using hb

/-- The character data of `Nat.repr n` is `reprDigits n`. -/
theorem repr_data (n : ℕ) : (Nat.repr n).data = reprDigits n := by
  unfold Nat.repr Nat.toDigits
  rw [toDigitsCore_eq_reprDigits (n + 1) n [] (Nat.lt_succ_self n)]
  simp [List.asString]

/-- `Nat.repr` is injective. -/
theorem nat_repr_inj {a b : ℕ} (h : Nat.repr a = Nat.repr b) : a = b := by
  apply reprDigits_inj
  rw [← repr_data, ← repr_data, h]

/-- Two user ids agree only at equal timestamps. -/
theorem user_id_inj {a b : ℕ}
    (h : "user-" ++ Nat.repr a = "user-" ++ Nat.repr b) : a = b := by
  have hd := congrArg String.data h
  rw [String.data_append, String.data_append] at hd
  have hcan := List.append_cancel_left hd
  apply reprDigits_inj
  rw [← repr_data, ← repr_data, hcan]

/-- Two model ids agree only at equal timestamps. -/
theorem model_id_inj {a b : ℕ}
    (h : "model-" ++ Nat.repr a = "model-" ++ Nat.repr b) : a = b := by
  have hd := congrArg String.data h
  rw [String.data_append, String.data_append] at hd
  have hcan := List.append_cancel_left hd
  apply reprDigits_inj
  rw [← repr_data, ← repr_data, hcan]

/-- A user id never coincides with a model id. -/
theorem user_ne_model (a b : ℕ) :
    "user-" ++ Nat.repr a ≠ "model-" ++ Nat.repr b := by
  intro h
  have hd := congrArg String.data h
  rw [String.data_append, String.data_append,
      show "user-".data = ['u', 's', 'e', 'r', '-'] from rfl,
      show "model-".data = ['m', 'o', 'd', 'e', 'l', '-'] from rfl] at hd
  simp at hd

/-- The turn-complete block appends a batch of entries all minted at the
given timestamp, with pairwise distinct ids inside the batch. -/
theorem turnCompleteStep_appends (s : HookState) (d : ℕ) :
    ∃ lnew, (turnCompleteStep s d).transcript = s.transcript ++ lnew ∧
      (∀ e ∈ lnew, entryFromDate d e) ∧
      (lnew.map TranscriptEntry.id).Nodup := by
  by_cases hin : jsTrim s.currentInputTranscription = ""
  · by_cases hout : jsTrim s.currentOutputTranscription = ""
    · exact ⟨[], by simp [turnCompleteStep, hin, hout], by simp, by simp⟩
    · refine ⟨[{ id := "model-" ++ Nat.repr d,
                 role := ConversationRole.MODEL,
                 text := jsTrim s.currentOutputTranscription }],
        by simp [turnCompleteStep, hin, hout], ?_, by simp⟩
      intro e he
      rw [List.mem_singleton] at he
      exact Or.inr (by rw [he])
  · by_cases hout : jsTrim s.currentOutputTranscription = ""
    · refine ⟨[{ id := "user-" ++ Nat.repr d,
                 role := ConversationRole.USER,
                 text := jsTrim s.currentInputTranscription }],
        by simp [turnCompleteStep, hin, hout], ?_, by simp⟩
      intro e he
      rw [List.mem_singleton] at he
      exact Or.inl (by rw [he])
    · refine ⟨[{ id := "user-" ++ Nat.repr d,
                 role := ConversationRole.USER,
                 text := jsTrim s.currentInputTranscription },
               { id := "model-" ++ Nat.repr d,
                 role := ConversationRole.MODEL,
                 text := jsTrim s.currentOutputTranscription }],
        by simp [turnCompleteStep, hin, hout], ?_, ?_⟩
      · intro e he
        rw [List.mem_cons, List.mem_singleton] at he
        rcases he with he | he
        · exact Or.inl (by rw [he])
        · exact Or.inr (by rw [he])
      · simp [user_ne_model d d]

/-- The transcript phase appends a batch of entries minted at the
message's timestamp — an empty batch unless the message carries the
turn-complete flag — and the batch's ids are pairwise distinct. -/
theorem transcriptPhase_appends (s : HookState) (m : ServerMessage) (d : ℕ) :
    ∃ lnew, (transcriptPhase s m d).transcript = s.transcript ++ lnew ∧
      (∀ e ∈ lnew, entryFromDate d e) ∧
      (lnew.map TranscriptEntry.id).Nodup ∧
      (m.turnComplete = false → lnew = []) := by
  have hacc : (accumulatePhase s m).transcript = s.transcript := by
    unfold accumulatePhase
    cases m.outputTranscription <;> cases m.inputTranscription <;> simp
  unfold transcriptPhase
  cases htc : m.turnComplete
  · exact ⟨[], by simpa using hacc, by simp, by simp, fun _ => rfl⟩
  · obtain ⟨lnew, h1, h2, h3⟩ := turnCompleteStep_appends (accumulatePhase s m) d
    rw [hacc] at h1
    exact ⟨lnew, by simpa using h1, h2, h3, by simp⟩

/-- `handleMessage` only changes the transcript through its transcript
phase: the audio and interruption blocks never touch it. -/
theorem handleMessage_transcript (s : HookState) (m : ServerMessage)
    (clockNow : ℚ) (dateNow fresh : ℕ) :
    (handleMessage s m clockNow dateNow fresh).1.transcript
      = (transcriptPhase s m dateNow).transcript := by
  simp only [handleMessage]
  rcases ha : m.modelTurnAudio with - | d
  · cases hi : m.interrupted <;> simp [interruptedStep]
  · rcases d with - | dur <;>
      cases hoc : (transcriptPhase s m dateNow).outputAudioContext <;>
        cases hi : m.interrupted <;> simp [interruptedStep]

/-- Folding the inbound events preserves uniqueness of transcript ids as
long as no pending turn-complete timestamp collides with an already-used
one or with another pending one. -/
theorem runMessages_ids_nodup (events : List MessageEvent) :
    ∀ s : HookState,
      (∀ e ∈ s.transcript, ∃ t, entryFromDate t e ∧ t ∉ turnDates events) →
      (s.transcript.map TranscriptEntry.id).Nodup →
      (turnDates events).Nodup →
      ((runMessages s events).transcript.map TranscriptEntry.id).Nodup := by
  induction events with
  | nil => intro s _ h2 _; exact h2
  | cons ev rest ih =>
    intro s hinv hnd hdates
    unfold runMessages
    have htr := handleMessage_transcript s ev.msg ev.clockNow ev.dateNow ev.fresh
    obtain ⟨lnew, ha, hb, hc, hd⟩ := transcriptPhase_appends s ev.msg ev.dateNow
    cases htc : ev.msg.turnComplete
    case false =>
      have hdr : turnDates (ev :: rest) = turnDates rest := by
        simp [turnDates, htc]
      rw [hdr] at hinv hdates
      apply ih
      · intro e he
        rw [htr, ha, hd htc] at he
        exact hinv e (by simpa using he)
      · rw [htr, ha, hd htc]
        simpa using hnd
      · exact hdates
    case true =>
      have hdr : turnDates (ev :: rest) = ev.dateNow :: turnDates rest := by
        simp [turnDates, htc]
      rw [hdr] at hinv hdates
      rw [List.nodup_cons] at hdates
      apply ih
      · intro e he
        rw [htr, ha] at he
        rcases List.mem_append.mp he with h | h
        · obtain ⟨t, h1, h2⟩ := hinv e h
          exact ⟨t, h1, fun hm => h2 (List.mem_cons_of_mem _ hm)⟩
        · exact ⟨ev.dateNow, hb e h, hdates.1⟩
      · rw [htr, ha, List.map_append, List.nodup_append]
        refine ⟨hnd, hc, ?_⟩
        intro x hx1 hx2
        rw [List.mem_map] at hx1 hx2
        obtain ⟨e1, he1, hxe1⟩ := hx1
        obtain ⟨e2, he2, hxe2⟩ := hx2
        obtain ⟨t, h1, h2⟩ := hinv e1 he1
        have hne : t ≠ ev.dateNow := fun hteq => h2 (hteq ▸ List.mem_cons_self _ _)
        have hfrom2 := hb e2 he2
        have hid : e1.id = e2.id := by rw [hxe1, hxe2]
        rcases h1 with h1 | h1 <;> rcases hfrom2 with hf | hf <;>
          rw [h1] at hid <;> rw [hf] at hid
        · exact hne (user_id_inj hid)
        · exact user_ne_model t ev.dateNow hid
        · exact user_ne_model ev.dateNow t hid.symm
        · exact hne (model_id_inj hid)
      · exact hdates.2

/-- C9 counterexample: two turns completing in the same `Date.now()`
millisecond mint the same id.  Two turn-complete messages handled at
timestamp 7, each with a non-empty input side, yield the transcript ids
["user-7", "user-7"], which are not pairwise distinct. -/
theorem transcript_id_collision :
    ¬ (((runMessages connectedState
        [{ msg := turnMsg "a", clockNow := 0, dateNow := 7, fresh := 0 },
         { msg := turnMsg "b", clockNow := 0, dateNow := 7, fresh := 1 }]).transcript.map
          TranscriptEntry.id).Nodup) := by
  decide

/-- C9 amended: transcript-entry ids are pairwise distinct for every
schedule of inbound events in which no two turn-complete signals are
handled at the same `Date.now()` timestamp (the code derives ids from
the role tag and that timestamp alone, so equal-timestamp turns of the
same role collide). -/
theorem transcript_ids_unique (events : List MessageEvent) (s : HookState)
    (h0 : s.transcript = []) (hd : (turnDates events).Nodup) :
    ((runMessages s events).transcript.map TranscriptEntry.id).Nodup :=
  runMessages_ids_nodup events s (by rw [h0]; simp) (by rw [h0]; simp) hd

/-- Witness for `transcript_ids_unique`: the same two-turn schedule with
distinct timestamps 7 and 8 yields pairwise distinct ids. -/
theorem transcript_ids_unique_witness :
    ((runMessages connectedState
        [{ msg := turnMsg "a", clockNow := 0, dateNow := 7, fresh := 0 },
         { msg := turnMsg "b", clockNow := 0, dateNow := 8, fresh := 1 }]).transcript.map
          TranscriptEntry.id).Nodup :=
  transcript_ids_unique _ connectedState rfl (by decide)

end GeminiLive
